import Mathlib

/-!
Verification of the gcp-emulator-control-plane authorization core.

The Go sources embedded here:
- `internal/policy/parser.go` — policy document model, `Load`, `Save`;
- `internal/config/config.go` — CLI configuration, `Init` defaults, `Validate`, `Load`.

Parts of the repository's core that are documented and tested but whose
implementation files are not present (the PolicyValidator referenced by
`internal/policy/parser_test.go`, and the PermissionMediator described in
`docs/ARCHITECTURE.md`) are modelled from the spec; their doc comments say so.

Go maps are modelled as association lists, `[]byte` buffers and the
json/yaml library codecs as type parameters, and fallible operations as
`Except String`.
-/

namespace GcpEmulator

/-- ASCII lowering of a character list; models `strings.ToLower` on the
extension strings the parser compares against. -/
def toLowerChars : List Char → List Char
  | [] => []
  | c :: cs => c.toLower :: toLowerChars cs

/-- Models `strings.ToLower` as used in parser.go on file extensions. -/
def strToLower (s : String) : String := String.mk (toLowerChars s.data)

/-- Final slash-separated element of a path, accumulator-style scan. -/
def lastSlashElem : List Char → List Char → List Char
  | [], acc => acc.reverse
  | c :: cs, acc => if c = '/' then lastSlashElem cs [] else lastSlashElem cs (c :: acc)

/-- Suffix beginning at the final dot of a character list, if any. -/
def lastDotSuffix : List Char → Option (List Char) → Option (List Char)
  | [], acc => acc
  | c :: cs, acc =>
    if c = '.' then lastDotSuffix cs (some (c :: cs)) else lastDotSuffix cs acc

/-- Models `filepath.Ext`: the suffix beginning at the final dot in the final
element of the path, empty when there is no dot. -/
def filepathExt (path : String) : String :=
  match lastDotSuffix (lastSlashElem path.data []) none with
  | none => ""
  | some cs => String.mk cs

/-- Condition of a binding (parser.go struct `Condition`). -/
structure Condition where
  Expression : String
  Title : String
  Description : String
deriving DecidableEq

/-- An IAM binding (parser.go struct `Binding`); the optional condition field. -/
structure Binding where
  Role : String
  Members : List String
  Cond : Option Condition
deriving DecidableEq

/-- A custom role (parser.go struct `Role`). -/
structure Role where
  Permissions : List String
deriving DecidableEq

/-- A group of members (parser.go struct `Group`). -/
structure Group where
  Members : List String
deriving DecidableEq

/-- A project holding bindings (parser.go struct `Project`). -/
structure Project where
  Bindings : List Binding
deriving DecidableEq

/-- The policy file structure (parser.go struct `Policy`); Go maps are
modelled as association lists keyed by name. -/
structure Policy where
  Roles : List (String × Role)
  Groups : List (String × Group)
  Projects : List (String × Project)
deriving DecidableEq

/-- The Go zero value of `Policy`: what unmarshalling empty input leaves in
the struct. -/
def emptyPolicy : Policy := { Roles := [], Groups := [], Projects := [] }

/-- Shallow embedding of `policy.Load` (parser.go lines 57-84). The
`os.ReadFile` outcome is passed as `readFileResult`, and the external
`json.Unmarshal` / `yaml.Unmarshal` library calls are the `jsonUnmarshal` /
`yamlUnmarshal` parameters over an abstract byte-buffer type `β`; everything
else (extension dispatch, fallback, error wrapping) is the function's own
logic, translated clause by clause. -/
def Load {β : Type} (jsonUnmarshal yamlUnmarshal : β → Except String Policy)
    (path : String) (readFileResult : Except String β) : Except String Policy :=
  match readFileResult with
  | .error e => .error ("failed to read policy file: " ++ e)
  | .ok data =>
    let ext := strToLower (filepathExt path)
    if ext = ".json" then
      match jsonUnmarshal data with
      | .error e => .error ("failed to parse policy JSON: " ++ e)
      | .ok p => .ok p
    else if ext = ".yaml" ∨ ext = ".yml" then
      match yamlUnmarshal data with
      | .error e => .error ("failed to parse policy YAML: " ++ e)
      | .ok p => .ok p
    else
      match yamlUnmarshal data with
      | .error e => .error ("failed to parse policy (unknown extension " ++ ext ++ ", tried YAML): " ++ e)
      | .ok p => .ok p

/-- Shallow embedding of `policy.Save` (parser.go lines 87-117). The external
`json.MarshalIndent` / `yaml.Marshal` calls are the parameters; the function
returns the marshaled bytes that the source hands to `os.WriteFile` (the
write itself is an external side effect). -/
def Save {β : Type} (jsonMarshal yamlMarshal : Policy → Except String β)
    (policy : Policy) (path : String) : Except String β :=
  let ext := strToLower (filepathExt path)
  if ext = ".json" then
    match jsonMarshal policy with
    | .error e => .error ("failed to marshal policy JSON: " ++ e)
    | .ok d => .ok d
  else if ext = ".yaml" ∨ ext = ".yml" then
    match yamlMarshal policy with
    | .error e => .error ("failed to marshal policy YAML: " ++ e)
    | .ok d => .ok d
  else
    match yamlMarshal policy with
    | .error e => .error ("failed to marshal policy YAML: " ++ e)
    | .ok d => .ok d

/-- Port mappings (config.go struct `PortConfig`). -/
structure PortConfig where
  IAM : Int
  SecretManager : Int
  KMS : Int
deriving DecidableEq

/-- The explicit configuration struct (config.go struct `Config`). -/
structure Config where
  IAMMode : String
  Trace : Bool
  PullOnStart : Bool
  PolicyFile : String
  Ports : PortConfig
deriving DecidableEq

/-- Shallow embedding of `Config.Validate` (config.go lines 87-105),
translated condition by condition. -/
def Config.Validate (c : Config) : Except String Unit :=
  if c.IAMMode ≠ "off" ∧ c.IAMMode ≠ "permissive" ∧ c.IAMMode ≠ "strict" then
    .error ("invalid iam-mode: " ++ c.IAMMode ++ " (must be off, permissive, or strict)")
  else if c.Ports.IAM < 1 ∨ c.Ports.IAM > 65535 then
    .error ("invalid IAM port: " ++ toString c.Ports.IAM)
  else if c.Ports.SecretManager < 1 ∨ c.Ports.SecretManager > 65535 then
    .error ("invalid Secret Manager port: " ++ toString c.Ports.SecretManager)
  else if c.Ports.KMS < 1 ∨ c.Ports.KMS > 65535 then
    .error ("invalid KMS port: " ++ toString c.Ports.KMS)
  else
    .ok ()

/-- The viper defaults set by `config.Init` (config.go lines 41-48): with no
flag, environment, or config-file override, `config.Load` resolves to exactly
these values. -/
def defaultConfig : Config :=
  { IAMMode := "permissive"
    Trace := false
    PullOnStart := false
    PolicyFile := "./policy.yaml"
    Ports := { IAM := 8080, SecretManager := 9090, KMS := 9091 } }

/-- Shallow embedding of `config.Load` (config.go lines 65-84) after viper
resolution: `c` is the already-resolved settings value; Load validates it and
returns it, or fails with the validation error. -/
def loadConfig (c : Config) : Except String Config :=
  match c.Validate with
  | .error e => .error e
  | .ok _ => .ok c

/-- Modelled from the spec: the IAM operating mode of §4.3, one of `Off`,
`Permissive`, `Strict` (the mediator implementation lives in the data-plane
emulator repositories, not under src/). -/
inductive IAMMode
  | off
  | permissive
  | strict
deriving DecidableEq

/-- Modelled from the spec: the classification of a Deny outcome (§6, §7) —
an explicit or missing-principal denial versus a Strict-mode connectivity
denial. -/
inductive DenyClass
  | permissionDenied
  | authorityUnavailable
deriving DecidableEq

/-- Modelled from the spec: the outcome code of a permission check (§6). -/
inductive Decision
  | allow
  | deny (c : DenyClass)
deriving DecidableEq

/-- Modelled from the spec: the outcome of one `AuthorityClient.CheckPermission`
call (§4.3) — either a `(granted, nil)` answer or a ConnectivityError. -/
inductive AuthorityResult
  | ok (granted : Bool)
  | connectivityError
deriving DecidableEq

/-- Modelled from the spec: the PermissionMediator decision procedure of the
§4.3 decision table (also tabulated in docs/ARCHITECTURE.md under "IAM Mode
Behavior Matrix"); the mediator implementation itself is not under src/. The
`authorityClient` parameter is the injected CheckPermission capability; the
returned Bool records whether that capability was invoked. The table is read
top-to-bottom, first match wins. -/
def CheckPermissionMediator (mode : IAMMode) (principal resource permission : String)
    (authorityClient : String → String → String → AuthorityResult) : Decision × Bool :=
  match mode with
  | .off => (.allow, false)
  | .permissive =>
    if principal = "" then (.deny .permissionDenied, false)
    else
      match authorityClient principal resource permission with
      | .connectivityError => (.allow, true)
      | .ok true => (.allow, true)
      | .ok false => (.deny .permissionDenied, true)
  | .strict =>
    if principal = "" then (.deny .permissionDenied, false)
    else
      match authorityClient principal resource permission with
      | .connectivityError => (.deny .authorityUnavailable, true)
      | .ok true => (.allow, true)
      | .ok false => (.deny .permissionDenied, true)

/-- The validator's aggregate result (declared in parser_test.go's
`TestValidationResult`; the validator implementation is not under src/). -/
structure ValidationResult where
  Valid : Bool
  Errors : List String
deriving DecidableEq

/-- Modelled from the spec (and from parser_test.go `TestValidationResult`):
`addError` marks the result invalid and appends the message to the error
list. -/
def ValidationResult.addError (r : ValidationResult) (msg : String) : ValidationResult :=
  { Valid := false, Errors := r.Errors ++ [msg] }

/-- Split a character list on dots, keeping empty segments, as
`strings.Split(s, ".")` does. -/
def splitDotAux : List Char → List Char → List String
  | [], acc => [String.mk acc.reverse]
  | c :: cs, acc =>
    if c = '.' then String.mk acc.reverse :: splitDotAux cs [] else splitDotAux cs (c :: acc)

/-- Dot-separated segments of a string, as `strings.Split(s, ".")`. -/
def splitDot (s : String) : List String := splitDotAux s.data []

/-- Modelled from the spec: the permission-format rule of §4.2 check 1 (and
parser_test.go `TestValidatePermissionFormat`): split on `.`; reject fewer
than 3 segments, any empty segment, or any `*` segment. The implementation
`validatePermission` is not under src/. -/
def validatePermission (permission : String) : Except String Unit :=
  let segments := splitDot permission
  if segments.length < 3 then
    .error ("invalid permission format (need at least 3 dot-separated segments): " ++ permission)
  else if segments.any (fun seg => seg == "") then
    .error ("invalid permission format (empty segment): " ++ permission)
  else if segments.any (fun seg => seg == "*") then
    .error ("invalid permission format (wildcard segment): " ++ permission)
  else
    .ok ()

/-- Modelled from the spec: §4.2 check 2 — a role key must begin with the
`roles/` namespace and have non-empty content after it. -/
def validateRoleName (name : String) : Except String Unit :=
  if ("roles/".data).isPrefixOf name.data ∧ 6 < name.data.length then
    .ok ()
  else
    .error ("invalid role name (must begin with roles/ and be non-empty after it): " ++ name)

/-- Association-list key membership, modelling a Go map key lookup. -/
def hasKey {α : Type} (l : List (String × α)) (k : String) : Bool :=
  l.any (fun kv => kv.1 == k)

/-- Modelled from the spec: the member grammar of §4.2 check 4 and §6 —
`user:<non-empty>`, `serviceAccount:<non-empty>`, `group:<name>`, `allUsers`,
`allAuthenticatedUsers`. -/
def validMemberFormat (member : String) : Bool :=
  member == "allUsers" || member == "allAuthenticatedUsers" ||
  (("user:".data).isPrefixOf member.data && decide (5 < member.data.length)) ||
  (("serviceAccount:".data).isPrefixOf member.data && decide (15 < member.data.length)) ||
  ("group:".data).isPrefixOf member.data

/-- The group name referenced by a `group:<name>` member, if the member has
the group form. -/
def memberGroupRef (member : String) : Option String :=
  if ("group:".data).isPrefixOf member.data then some (String.mk (member.data.drop 6)) else none

/-- Modelled from the spec: §4.2 check 4 applied to one member string —
reject a malformed member, and reject a `group:<name>` member whose name is
not a key of `Groups`. -/
def checkMember (doc : Policy) (acc : ValidationResult) (m : String) : ValidationResult :=
  if !(validMemberFormat m) then
    acc.addError ("invalid member format: " ++ m)
  else
    match memberGroupRef m with
    | some g =>
      if !(hasKey doc.Groups g) then acc.addError ("undefined group reference: " ++ m) else acc
    | none => acc

/-- One permission-format check step of the validator's accumulating pass. -/
def permStep (acc : ValidationResult) (p : String) : ValidationResult :=
  match validatePermission p with
  | .error e => acc.addError e
  | .ok _ => acc

/-- Check 1 over one role entry: every permission string of the role. -/
def rolePermStep (acc : ValidationResult) (nr : String × Role) : ValidationResult :=
  nr.2.Permissions.foldl permStep acc

/-- Check 2 over one role entry: the role key's name. -/
def roleNameStep (acc : ValidationResult) (nr : String × Role) : ValidationResult :=
  match validateRoleName nr.1 with
  | .error e => acc.addError e
  | .ok _ => acc

/-- Check 3 over one binding: a `roles/custom.*` reference must be a key of
`Roles`; any other role reference is a built-in, accepted unconditionally. -/
def bindingRefStep (doc : Policy) (acc : ValidationResult) (b : Binding) : ValidationResult :=
  if ("roles/custom.".data).isPrefixOf b.Role.data && !(hasKey doc.Roles b.Role) then
    acc.addError ("undefined custom role reference: " ++ b.Role)
  else
    acc

/-- Check 3 over one project: every binding of the project. -/
def projectRefStep (doc : Policy) (acc : ValidationResult) (np : String × Project) : ValidationResult :=
  np.2.Bindings.foldl (bindingRefStep doc) acc

/-- Check 4 over one group entry: every member of the group. -/
def groupMembersStep (doc : Policy) (acc : ValidationResult) (ng : String × Group) : ValidationResult :=
  ng.2.Members.foldl (checkMember doc) acc

/-- Check 4 over one binding: every member of the binding. -/
def bindingMembersStep (doc : Policy) (acc : ValidationResult) (b : Binding) : ValidationResult :=
  b.Members.foldl (checkMember doc) acc

/-- Check 4 over one project: every binding's members. -/
def projectMembersStep (doc : Policy) (acc : ValidationResult) (np : String × Project) : ValidationResult :=
  np.2.Bindings.foldl (bindingMembersStep doc) acc

/-- Check 5 over one binding: a present condition must carry a non-empty
expression. -/
def conditionStep (acc : ValidationResult) (b : Binding) : ValidationResult :=
  match b.Cond with
  | some cond =>
    if cond.Expression == "" then
      acc.addError ("empty condition expression in binding for role: " ++ b.Role)
    else
      acc
  | none => acc

/-- Check 5 over one project: every binding's condition. -/
def projectCondStep (acc : ValidationResult) (np : String × Project) : ValidationResult :=
  np.2.Bindings.foldl conditionStep acc

/-- Modelled from the spec: `PolicyValidator.Validate` of §4.2 (the
implementation is not under src/; parser_test.go exercises its pieces).
Checks 1-5 run in order over the whole document, threading one mutable
collector through every step — accumulate, don't short-circuit. -/
def Validate (doc : Policy) : ValidationResult :=
  let r0 : ValidationResult := { Valid := true, Errors := [] }
  let r1 := doc.Roles.foldl rolePermStep r0
  let r2 := doc.Roles.foldl roleNameStep r1
  let r3 := doc.Projects.foldl (projectRefStep doc) r2
  let r4a := doc.Groups.foldl (groupMembersStep doc) r3
  let r4 := doc.Projects.foldl (projectMembersStep doc) r4a
  doc.Projects.foldl projectCondStep r4

/-- A document with exactly two independent structural defects: one bad
permission (2 segments) and one `group:` member referencing an undefined
group. -/
def twoDefectDoc : Policy :=
  { Roles := [("roles/custom.dev", { Permissions := ["secretmanager.get"] })]
    Groups := []
    Projects := [("test-project",
      { Bindings := [{ Role := "roles/custom.dev", Members := ["group:ghost"], Cond := none }] })] }

/-- A small concrete policy used to instantiate the codec round-trip. -/
def samplePolicy : Policy :=
  { Roles := [("roles/custom.test", { Permissions := ["secretmanager.secrets.get"] })]
    Groups := [("testers", { Members := ["user:test@example.com"] })]
    Projects := [("test-project",
      { Bindings := [{ Role := "roles/custom.test", Members := ["group:testers"], Cond := none }] })] }

/-- The accumulate-don't-short-circuit invariant of a collector value: the
valid flag is true exactly when the error list is empty. -/
def VRinv (r : ValidationResult) : Prop := r.Valid = true ↔ r.Errors = []

/-- Folding a step that preserves a predicate preserves it over any list. -/
theorem foldl_pres {α β : Type} (P : α → Prop) (f : α → β → α)
    (hf : ∀ a b, P a → P (f a b)) :
    ∀ (l : List β) (a : α), P a → P (l.foldl f a)
  | [], _, ha => ha
  | b :: l, a, ha => foldl_pres P f hf l (f a b) (hf a b ha)

/-- Adding an error always reestablishes the collector invariant: the result
is marked invalid and its error list is non-empty. -/
theorem VRinv_addError (r : ValidationResult) (msg : String) : VRinv (r.addError msg) := by
  simp [VRinv, ValidationResult.addError]

/-- The permission-format step preserves the collector invariant. -/
theorem permStep_pres (a : ValidationResult) (p : String) (h : VRinv a) :
    VRinv (permStep a p) := by
  unfold permStep
  split
  · exact VRinv_addError a _
  · exact h

/-- Check 1 over a role preserves the collector invariant. -/
theorem rolePermStep_pres (a : ValidationResult) (nr : String × Role) (h : VRinv a) :
    VRinv (rolePermStep a nr) :=
  foldl_pres VRinv permStep permStep_pres nr.2.Permissions a h

/-- The role-name step preserves the collector invariant. -/
theorem roleNameStep_pres (a : ValidationResult) (nr : String × Role) (h : VRinv a) :
    VRinv (roleNameStep a nr) := by
  unfold roleNameStep
  split
  · exact VRinv_addError a _
  · exact h

/-- The custom-role-reference step preserves the collector invariant. -/
theorem bindingRefStep_pres (doc : Policy) (a : ValidationResult) (b : Binding) (h : VRinv a) :
    VRinv (bindingRefStep doc a b) := by
  unfold bindingRefStep
  split
  · exact VRinv_addError a _
  · exact h

/-- Check 3 over a project preserves the collector invariant. -/
theorem projectRefStep_pres (doc : Policy) (a : ValidationResult) (np : String × Project)
    (h : VRinv a) : VRinv (projectRefStep doc a np) :=
  foldl_pres VRinv (bindingRefStep doc) (bindingRefStep_pres doc) np.2.Bindings a h

/-- The member-format step preserves the collector invariant. -/
theorem checkMember_pres (doc : Policy) (a : ValidationResult) (m : String) (h : VRinv a) :
    VRinv (checkMember doc a m) := by
  unfold checkMember
  split
  · exact VRinv_addError a _
  · split
    · split
      · exact VRinv_addError a _
      · exact h
    · exact h

/-- Check 4 over a group preserves the collector invariant. -/
theorem groupMembersStep_pres (doc : Policy) (a : ValidationResult) (ng : String × Group)
    (h : VRinv a) : VRinv (groupMembersStep doc a ng) :=
  foldl_pres VRinv (checkMember doc) (checkMember_pres doc) ng.2.Members a h

/-- Check 4 over a binding preserves the collector invariant. -/
theorem bindingMembersStep_pres (doc : Policy) (a : ValidationResult) (b : Binding)
    (h : VRinv a) : VRinv (bindingMembersStep doc a b) :=
  foldl_pres VRinv (checkMember doc) (checkMember_pres doc) b.Members a h

/-- Check 4 over a project preserves the collector invariant. -/
theorem projectMembersStep_pres (doc : Policy) (a : ValidationResult) (np : String × Project)
    (h : VRinv a) : VRinv (projectMembersStep doc a np) :=
  foldl_pres VRinv (bindingMembersStep doc) (bindingMembersStep_pres doc) np.2.Bindings a h

/-- The condition step preserves the collector invariant. -/
theorem conditionStep_pres (a : ValidationResult) (b : Binding) (h : VRinv a) :
    VRinv (conditionStep a b) := by
  unfold conditionStep
  split
  · split
    · exact VRinv_addError a _
    · exact h
  · exact h

/-- Check 5 over a project preserves the collector invariant. -/
theorem projectCondStep_pres (a : ValidationResult) (np : String × Project) (h : VRinv a) :
    VRinv (projectCondStep a np) :=
  foldl_pres VRinv conditionStep conditionStep_pres np.2.Bindings a h

/-- The full validation pass maintains the collector invariant end to end. -/
theorem Validate_inv (doc : Policy) : VRinv (Validate doc) :=
  foldl_pres VRinv projectCondStep projectCondStep_pres doc.Projects _
    (foldl_pres VRinv (projectMembersStep doc) (projectMembersStep_pres doc) doc.Projects _
      (foldl_pres VRinv (groupMembersStep doc) (groupMembersStep_pres doc) doc.Groups _
        (foldl_pres VRinv (projectRefStep doc) (projectRefStep_pres doc) doc.Projects _
          (foldl_pres VRinv roleNameStep roleNameStep_pres doc.Roles _
            (foldl_pres VRinv rolePermStep rolePermStep_pres doc.Roles _
              (by simp [VRinv]))))))

/-- Claim C1: with mode Off the mediator allows every request and the
AuthorityClient's CheckPermission is never invoked, for every input and every
client. -/
theorem mode_off_allows_without_authority (principal resource permission : String)
    (authorityClient : String → String → String → AuthorityResult) :
    CheckPermissionMediator .off principal resource permission authorityClient
      = (.allow, false) := rfl

/-- Claim C2: in Permissive and in Strict mode an empty principal is denied
and the AuthorityClient is never invoked, for every resource, permission and
client. -/
theorem empty_principal_denied_without_authority (resource permission : String)
    (authorityClient : String → String → String → AuthorityResult) :
    CheckPermissionMediator .permissive "" resource permission authorityClient
        = (.deny .permissionDenied, false)
      ∧ CheckPermissionMediator .strict "" resource permission authorityClient
        = (.deny .permissionDenied, false) := by
  constructor <;> simp [CheckPermissionMediator]

/-- Claim C3: for a non-empty principal, a ConnectivityError from the
AuthorityClient is allowed in Permissive mode (fail-open) and denied as
authority-unavailable — a class distinct from permission-denied — in Strict
mode (fail-closed). -/
theorem connectivity_error_mode_sensitivity (principal resource permission : String)
    (authorityClient : String → String → String → AuthorityResult)
    (hp : principal ≠ "")
    (hc : authorityClient principal resource permission = .connectivityError) :
    CheckPermissionMediator .permissive principal resource permission authorityClient
        = (.allow, true)
      ∧ CheckPermissionMediator .strict principal resource permission authorityClient
        = (.deny .authorityUnavailable, true)
      ∧ Decision.deny .authorityUnavailable ≠ Decision.deny .permissionDenied := by
  refine ⟨?_, ?_, by decide⟩ <;> simp [CheckPermissionMediator, hp, hc]

/-- Witness for claim C3 at a concrete principal against an authority that
always times out. -/
theorem connectivity_error_mode_sensitivity_witness :
    CheckPermissionMediator .permissive "user:alice@example.com" "projects/p/secrets/s"
        "secretmanager.secrets.get" (fun _ _ _ => .connectivityError) = (.allow, true)
      ∧ CheckPermissionMediator .strict "user:alice@example.com" "projects/p/secrets/s"
        "secretmanager.secrets.get" (fun _ _ _ => .connectivityError)
        = (.deny .authorityUnavailable, true)
      ∧ Decision.deny .authorityUnavailable ≠ Decision.deny .permissionDenied :=
  connectivity_error_mode_sensitivity "user:alice@example.com" "projects/p/secrets/s"
    "secretmanager.secrets.get" (fun _ _ _ => .connectivityError) (by decide) rfl

/-- Claim C4: an explicit authority-rendered denial (granted=false with no
error) is denied in both enforcement modes — never overridden by mode. -/
theorem explicit_denial_never_overridden (principal resource permission : String)
    (authorityClient : String → String → String → AuthorityResult)
    (hp : principal ≠ "")
    (hd : authorityClient principal resource permission = .ok false) :
    CheckPermissionMediator .permissive principal resource permission authorityClient
        = (.deny .permissionDenied, true)
      ∧ CheckPermissionMediator .strict principal resource permission authorityClient
        = (.deny .permissionDenied, true) := by
  constructor <;> simp [CheckPermissionMediator, hp, hd]

/-- Witness for claim C4 at a concrete principal against an authority that
explicitly denies. -/
theorem explicit_denial_never_overridden_witness :
    CheckPermissionMediator .permissive "user:bob@example.com" "projects/p/keys/k"
        "cloudkms.cryptoKeys.encrypt" (fun _ _ _ => .ok false) = (.deny .permissionDenied, true)
      ∧ CheckPermissionMediator .strict "user:bob@example.com" "projects/p/keys/k"
        "cloudkms.cryptoKeys.encrypt" (fun _ _ _ => .ok false)
        = (.deny .permissionDenied, true) :=
  explicit_denial_never_overridden "user:bob@example.com" "projects/p/keys/k"
    "cloudkms.cryptoKeys.encrypt" (fun _ _ _ => .ok false) (by decide) rfl

/-- Claim C5, counterexample: the viper default for iam-mode set by
config.Init is "permissive", not "off" as the claim states. -/
theorem default_mode_not_off :
    defaultConfig.IAMMode = "permissive" ∧ defaultConfig.IAMMode ≠ "off" :=
  ⟨rfl, by decide⟩

/-- Claim C5 as amended: the mode setting has exactly the three legal values
off, permissive and strict — any other string makes config.Load fail with the
iam-mode configuration error — and the default is permissive. -/
theorem mode_validation (c : Config)
    (hIAM : 1 ≤ c.Ports.IAM ∧ c.Ports.IAM ≤ 65535)
    (hSM : 1 ≤ c.Ports.SecretManager ∧ c.Ports.SecretManager ≤ 65535)
    (hKMS : 1 ≤ c.Ports.KMS ∧ c.Ports.KMS ≤ 65535) :
    (loadConfig c = .ok c
        ↔ (c.IAMMode = "off" ∨ c.IAMMode = "permissive" ∨ c.IAMMode = "strict"))
      ∧ (c.IAMMode ≠ "off" → c.IAMMode ≠ "permissive" → c.IAMMode ≠ "strict" →
          loadConfig c
            = .error ("invalid iam-mode: " ++ c.IAMMode ++ " (must be off, permissive, or strict)"))
      ∧ defaultConfig.IAMMode = "permissive"
      ∧ loadConfig defaultConfig = .ok defaultConfig := by
  have hp1 : ¬(c.Ports.IAM < 1 ∨ c.Ports.IAM > 65535) := by omega
  have hp2 : ¬(c.Ports.SecretManager < 1 ∨ c.Ports.SecretManager > 65535) := by omega
  have hp3 : ¬(c.Ports.KMS < 1 ∨ c.Ports.KMS > 65535) := by omega
  refine ⟨⟨?_, ?_⟩, ?_, rfl, rfl⟩
  · intro h
    by_contra hmode
    push_neg at hmode
    obtain ⟨h1, h2, h3⟩ := hmode
    simp only [loadConfig, Config.Validate, if_pos (And.intro h1 (And.intro h2 h3))] at h
    exact Except.noConfusion h
  · intro hmode
    have hcond : ¬(c.IAMMode ≠ "off" ∧ c.IAMMode ≠ "permissive" ∧ c.IAMMode ≠ "strict") := by
      tauto
    simp only [loadConfig, Config.Validate, if_neg hcond, if_neg hp1, if_neg hp2, if_neg hp3]
  · intro h1 h2 h3
    simp only [loadConfig, Config.Validate, if_pos (And.intro h1 (And.intro h2 h3))]

/-- Witness for claim C5 as amended, at the default configuration. -/
theorem mode_validation_witness :
    loadConfig defaultConfig = .ok defaultConfig ∧ defaultConfig.IAMMode = "permissive" :=
  ⟨((mode_validation defaultConfig (by decide) (by decide) (by decide)).1).mpr
      (Or.inr (Or.inl rfl)),
    (mode_validation defaultConfig (by decide) (by decide) (by decide)).2.2.1⟩

/-- Claim C6: when the byte content cannot be decoded into the schema by
either library codec, Load returns an error and never a document. -/
theorem load_parse_failure {β : Type} (jsonUnmarshal yamlUnmarshal : β → Except String Policy)
    (path : String) (data : β)
    (hjson : ∀ p, jsonUnmarshal data ≠ .ok p)
    (hyaml : ∀ p, yamlUnmarshal data ≠ .ok p) :
    (Load jsonUnmarshal yamlUnmarshal path (.ok data)).isOk = false := by
  obtain ⟨ej, hj⟩ : ∃ e, jsonUnmarshal data = .error e := by
    cases h : jsonUnmarshal data with
    | error e => exact ⟨e, rfl⟩
    | ok p => exact absurd h (hjson p)
  obtain ⟨ey, hy⟩ : ∃ e, yamlUnmarshal data = .error e := by
    cases h : yamlUnmarshal data with
    | error e => exact ⟨e, rfl⟩
    | ok p => exact absurd h (hyaml p)
  simp only [Load]
  split
  · simp [hj, Except.isOk, Except.toBool]
  · split
    · simp [hy, Except.isOk, Except.toBool]
    · simp [hy, Except.isOk, Except.toBool]

/-- Witness for claim C6: both decoders reject the data, Load returns no
document. -/
theorem load_parse_failure_witness :
    (Load (β := Unit) (fun _ => .error "bad json") (fun _ => .error "bad yaml")
      "policy.json" (.ok ())).isOk = false :=
  load_parse_failure (fun _ => .error "bad json") (fun _ => .error "bad yaml")
    "policy.json" () (fun _ h => Except.noConfusion h) (fun _ h => Except.noConfusion h)

/-- Claim C7: Save followed by Load on the same path reproduces the document
exactly (roles, groups, bindings, and member/permission order), for any
marshal/unmarshal pairs that are mutually inverse — both functions select the
same codec from the same extension dispatch. -/
theorem save_load_roundtrip {β : Type}
    (jsonMarshal yamlMarshal : Policy → Except String β)
    (jsonUnmarshal yamlUnmarshal : β → Except String Policy)
    (hjson : ∀ p d, jsonMarshal p = .ok d → jsonUnmarshal d = .ok p)
    (hyaml : ∀ p d, yamlMarshal p = .ok d → yamlUnmarshal d = .ok p)
    (policy : Policy) (path : String) (data : β)
    (hsave : Save jsonMarshal yamlMarshal policy path = .ok data) :
    Load jsonUnmarshal yamlUnmarshal path (.ok data) = .ok policy := by
  simp only [Save] at hsave
  simp only [Load]
  split at hsave
  · rename_i hext
    rw [if_pos hext]
    cases hm : jsonMarshal policy with
    | error e => rw [hm] at hsave; simp at hsave
    | ok d =>
      rw [hm] at hsave
      simp only [Except.ok.injEq] at hsave
      subst hsave
      rw [hjson policy d hm]
  · rename_i hnotjson
    split at hsave
    · rename_i hext
      rw [if_neg hnotjson, if_pos hext]
      cases hm : yamlMarshal policy with
      | error e => rw [hm] at hsave; simp at hsave
      | ok d =>
        rw [hm] at hsave
        simp only [Except.ok.injEq] at hsave
        subst hsave
        rw [hyaml policy d hm]
    · rename_i hext2
      rw [if_neg hnotjson, if_neg hext2]
      cases hm : yamlMarshal policy with
      | error e => rw [hm] at hsave; simp at hsave
      | ok d =>
        rw [hm] at hsave
        simp only [Except.ok.injEq] at hsave
        subst hsave
        rw [hyaml policy d hm]

/-- Witness for claim C7: a concrete document round-trips through concrete
mutually-inverse codecs on a .yaml path. -/
theorem save_load_roundtrip_witness :
    Load (β := Policy) (fun d => .ok d) (fun d => .ok d) "policy.yaml"
      (.ok samplePolicy) = .ok samplePolicy :=
  save_load_roundtrip (fun p => .ok p) (fun p => .ok p) (fun d => .ok d) (fun d => .ok d)
    (fun _ _ h => by rw [Except.ok.injEq] at h; rw [h])
    (fun _ _ h => by rw [Except.ok.injEq] at h; rw [h])
    samplePolicy "policy.yaml" samplePolicy rfl

/-- Claim C8: Load selects its parser by file extension — a .json extension
is decided entirely by the JSON codec, .yaml or .yml entirely by the YAML
codec, and any other extension falls back to the YAML codec, emitting the
unknown-extension error message only when that YAML parse also fails. -/
theorem load_extension_dispatch {β : Type}
    (jsonUnmarshal yamlUnmarshal : β → Except String Policy) (path : String) (data : β) :
    (strToLower (filepathExt path) = ".json" →
        (∀ yamlU2 : β → Except String Policy,
            Load jsonUnmarshal yamlU2 path (.ok data)
              = Load jsonUnmarshal yamlUnmarshal path (.ok data))
          ∧ (∀ p, jsonUnmarshal data = .ok p →
              Load jsonUnmarshal yamlUnmarshal path (.ok data) = .ok p)
          ∧ (∀ e, jsonUnmarshal data = .error e →
              Load jsonUnmarshal yamlUnmarshal path (.ok data)
                = .error ("failed to parse policy JSON: " ++ e)))
      ∧ ((strToLower (filepathExt path) = ".yaml" ∨ strToLower (filepathExt path) = ".yml") →
        (∀ jsonU2 : β → Except String Policy,
            Load jsonU2 yamlUnmarshal path (.ok data)
              = Load jsonUnmarshal yamlUnmarshal path (.ok data))
          ∧ (∀ p, yamlUnmarshal data = .ok p →
              Load jsonUnmarshal yamlUnmarshal path (.ok data) = .ok p)
          ∧ (∀ e, yamlUnmarshal data = .error e →
              Load jsonUnmarshal yamlUnmarshal path (.ok data)
                = .error ("failed to parse policy YAML: " ++ e)))
      ∧ (strToLower (filepathExt path) ≠ ".json" →
         ¬(strToLower (filepathExt path) = ".yaml" ∨ strToLower (filepathExt path) = ".yml") →
        (∀ jsonU2 : β → Except String Policy,
            Load jsonU2 yamlUnmarshal path (.ok data)
              = Load jsonUnmarshal yamlUnmarshal path (.ok data))
          ∧ (∀ p, yamlUnmarshal data = .ok p →
              Load jsonUnmarshal yamlUnmarshal path (.ok data) = .ok p)
          ∧ (∀ e, yamlUnmarshal data = .error e →
              Load jsonUnmarshal yamlUnmarshal path (.ok data)
                = .error ("failed to parse policy (unknown extension "
                    ++ strToLower (filepathExt path) ++ ", tried YAML): " ++ e))) := by
  refine ⟨?_, ?_, ?_⟩
  · intro hext
    refine ⟨?_, ?_, ?_⟩
    · intro yamlU2
      simp [Load, if_pos hext]
    · intro p hp
      simp [Load, if_pos hext, hp]
    · intro e he
      simp [Load, if_pos hext, he]
  · intro hext
    have hnotjson : ¬(strToLower (filepathExt path) = ".json") := by
      rcases hext with h | h <;> rw [h] <;> decide
    refine ⟨?_, ?_, ?_⟩
    · intro jsonU2
      simp [Load, if_neg hnotjson, if_pos hext]
    · intro p hp
      simp [Load, if_neg hnotjson, if_pos hext, hp]
    · intro e he
      simp [Load, if_neg hnotjson, if_pos hext, he]
  · intro hnotjson hnotyaml
    refine ⟨?_, ?_, ?_⟩
    · intro jsonU2
      simp [Load, if_neg hnotjson, if_neg hnotyaml]
    · intro p hp
      simp [Load, if_neg hnotjson, if_neg hnotyaml, hp]
    · intro e he
      simp [Load, if_neg hnotjson, if_neg hnotyaml, he]

/-- Witness for claim C8: on a .json path the JSON codec's document is what
Load returns. -/
theorem load_extension_dispatch_witness :
    Load (β := Unit) (fun _ => .ok samplePolicy) (fun _ => .error "yaml refused")
      "policy.json" (.ok ()) = .ok samplePolicy :=
  ((load_extension_dispatch (fun _ => .ok samplePolicy) (fun _ => .error "yaml refused")
      "policy.json" ()).1 (by decide)).2.1 samplePolicy rfl

/-- Claim C9: Validate accumulates instead of short-circuiting — for every
document the valid flag is true exactly when the error list is empty after
the full pass, and a document with two independent defects yields exactly two
errors. -/
theorem validate_accumulates :
    (∀ doc : Policy, (Validate doc).Valid = true ↔ (Validate doc).Errors = [])
      ∧ (Validate twoDefectDoc).Valid = false
      ∧ (Validate twoDefectDoc).Errors.length = 2 :=
  ⟨fun doc => Validate_inv doc, by decide, by decide⟩

/-- Witness for claim C9 at concrete documents. -/
theorem validate_accumulates_witness :
    ((Validate emptyPolicy).Valid = true ↔ (Validate emptyPolicy).Errors = [])
      ∧ (Validate twoDefectDoc).Errors.length = 2 :=
  ⟨validate_accumulates.1 emptyPolicy, validate_accumulates.2.2⟩

/-- Claim C10: Load enforces no non-emptiness constraint — a YAML decode that
yields the zero-value document (as yaml.Unmarshal does on empty content)
makes Load succeed with all three mappings empty. -/
theorem load_allows_empty_document {β : Type}
    (jsonUnmarshal yamlUnmarshal : β → Except String Policy) (data : β)
    (hyaml : yamlUnmarshal data = .ok emptyPolicy) :
    Load jsonUnmarshal yamlUnmarshal "policy.yaml" (.ok data) = .ok emptyPolicy
      ∧ emptyPolicy.Roles = [] ∧ emptyPolicy.Groups = [] ∧ emptyPolicy.Projects = [] := by
  refine ⟨?_, rfl, rfl, rfl⟩
  simp only [Load]
  rw [if_neg (by decide), if_pos (by decide), hyaml]

/-- Witness for claim C10: a decoder that yields the empty document on empty
content makes Load succeed. -/
theorem load_allows_empty_document_witness :
    Load (β := Unit) (fun _ => .error "no json") (fun _ => .ok emptyPolicy)
        "policy.yaml" (.ok ()) = .ok emptyPolicy
      ∧ emptyPolicy.Roles = [] ∧ emptyPolicy.Groups = [] ∧ emptyPolicy.Projects = [] :=
  load_allows_empty_document (fun _ => .error "no json") (fun _ => .ok emptyPolicy) () rfl

end GcpEmulator
